import Mathlib

/-!
Verification development for a small Go HTTP service scaffold.

The development shallowly embeds the two cores of the service package:

* the method registry and route-controller dispatch model
  (methods.go and webcontroller.go of package service, plus the
  router construction in service.go), and
* the pagination helpers of package pagination (pagination.go).

Go machine integers (int64 and int) are modelled as Lean Int, with Go
truncated division and remainder rendered as Int.tdiv and Int.tmod.
Where a computation can actually leave the int64 range for inputs the
functions accept, the wrap-around is made explicit with wrap64; in all
other places every intermediate value is in range for the inputs the
theorems quantify over, so plain Int arithmetic agrees with Go int64
arithmetic.
-/

namespace Service

/-! ## Method registry, from methods.go

Go declares the HTTP methods as iota constants and maps between the
id and the upper-cased name with switch statements; a Go switch on a
value is an if-else chain, which is how it is rendered here. -/

def Options : Int := 0

def Head : Int := 1

def Post : Int := 2

def Get : Int := 3

def Put : Int := 4

def Patch : Int := 5

def Delete : Int := 6

def Connect : Int := 7

def Trace : Int := 8

/-- IsMethod returns true if the int value matches one of the iota values
for a HTTP method. -/
def IsMethod (m : Int) : Bool :=
  if m = Options then true
  else if m = Head then true
  else if m = Post then true
  else if m = Get then true
  else if m = Put then true
  else if m = Patch then true
  else if m = Delete then true
  else if m = Connect then true
  else if m = Trace then true
  else false

/-- GetMethodName returns the upper-cased method, i.e. GET for a given
method int value, and the empty string for an unknown id. -/
def GetMethodName (m : Int) : String :=
  if m = Options then "OPTIONS"
  else if m = Head then "HEAD"
  else if m = Post then "POST"
  else if m = Get then "GET"
  else if m = Put then "PUT"
  else if m = Patch then "PATCH"
  else if m = Delete then "DELETE"
  else if m = Connect then "CONNECT"
  else if m = Trace then "TRACE"
  else ""

/-- GetMethodID returns an int value for a valid HTTP method name
(upper-cased); the Go switch defaults to 0 for any other name. -/
def GetMethodID (method : String) : Int :=
  if method = "OPTIONS" then Options
  else if method = "HEAD" then Head
  else if method = "POST" then Post
  else if method = "GET" then Get
  else if method = "PUT" then Put
  else if method = "PATCH" then Patch
  else if method = "DELETE" then Delete
  else if method = "CONNECT" then Connect
  else if method = "TRACE" then Trace
  else 0

/-- Request carries the only request field the dispatch logic reads. -/
structure Request where
  Method : String

/-- GetHTTPMethod returns the method ID for the method in a HTTP request. -/
def GetHTTPMethod (req : Request) : Int :=
  GetMethodID req.Method

end Service

namespace Pagination

/-! ## Pagination helpers, from pagination.go of package pagination -/

/-- DefaultLimit defines the default number of items per page for APIs. -/
def DefaultLimit : Int := 25

/-- DefaultOffset defines the default offset for API responses. -/
def DefaultOffset : Int := 0

/-- CurrentPage returns the current page for a given offset and limit
value. -/
def CurrentPage (offset limit : Int) : Int :=
  if limit = 0 then 0
  else (offset + limit).tdiv limit

/-- MaxOffset returns the maximum possible offset for a given number of
pages and limit per page. -/
def MaxOffset (total limit : Int) : Int :=
  let limit := if limit = 0 then DefaultLimit else limit
  ((total - 1).tdiv limit) * limit

/-- PageCount returns the number of pages for a given total and items per
page. -/
def PageCount (total limit : Int) : Int :=
  let limit := if limit = 0 then DefaultLimit else limit
  let pages := total.tdiv limit
  if 0 < total.tmod limit then pages + 1 else pages

/-- OffsetFromPage returns the offset from a page number. -/
def OffsetFromPage (page limit : Int) : Int :=
  let page := if page = 0 then 1 else page
  let limit := if limit = 0 then DefaultLimit else limit
  (page * limit) - limit

/-! ## Query-string parsing, from LimitAndOffset of pagination.go

A Go url.Values lookup with Get returns the empty string for an absent
key, so a query string is modelled as a total function from key to
value with the empty string meaning absent. strconv.ParseInt with base
10 and bit size 64 is modelled by parseInt64: an optional single sign,
at least one ASCII digit, nothing else, and the signed value must fit
in 64 bits, otherwise the Go call returns a non-nil error. -/

/-- parseInt64 models strconv.ParseInt(s, 10, 64): some value on
success, none when Go would return a non-nil error. -/
def parseInt64 (s : String) : Option Int :=
  match s.data with
  | [] => none
  | c :: rest =>
    let signDigits : Bool × List Char :=
      if c = '-' then (true, rest)
      else if c = '+' then (false, rest)
      else (false, c :: rest)
    let neg := signDigits.1
    let digits := signDigits.2
    if digits.isEmpty then none
    else if digits.all (fun d => d.isDigit) then
      let n : Nat := digits.foldl (fun acc d => acc * 10 + (d.toNat - 48)) 0
      let v : Int := if neg then -(n : Int) else (n : Int)
      if -(2 ^ 63) ≤ v ∧ v ≤ 2 ^ 63 - 1 then some v else none
    else none

/-- wrap64 reduces an integer to the two-complement int64 value Go
arithmetic would produce. -/
def wrap64 (x : Int) : Int :=
  (x + 2 ^ 63) % 2 ^ 64 - 2 ^ 63

/-- limitParamOf picks the limit-carrying parameter name: per_page when
present, else limit (first block of LimitAndOffset). -/
def limitParamOf (query : String → String) : String :=
  if query "per_page" ≠ "" then "per_page" else "limit"

/-- limitStep resolves the limit value: parse the explicit parameter when
present, else use DefaultLimit (LimitAndOffset, parse block). -/
def limitStep (query : String → String) : Except String Int :=
  let limitParam := limitParamOf query
  if query limitParam ≠ "" then
    match parseInt64 (query limitParam) with
    | none =>
      Except.error (limitParam ++ " (" ++ query limitParam ++ ") is not a number")
    | some inLimit => Except.ok inLimit
  else Except.ok DefaultLimit

/-- checkLimit validates an explicit limit that differs from the default:
at least 1, a multiple of 5, at most 250 (LimitAndOffset, validation
block); some message signals the 400 error. -/
def checkLimit (limitParam : String) (limit : Int) : Option String :=
  if limit ≠ DefaultLimit then
    if limit < 1 then
      some (limitParam ++ " (" ++ toString limit ++ ") cannot be zero or negative")
    else if limit.tmod 5 ≠ 0 then
      some (limitParam ++ " (" ++ toString limit ++ ") must be a multiple of 5")
    else if limit > 250 then
      some (limitParam ++ " (" ++ toString limit ++ ") cannot exceed 250")
    else none
  else none

/-- offsetStep resolves the offset parameter when present: it must parse,
be nonnegative and be a multiple of the resolved limit; absent means
DefaultOffset (LimitAndOffset, offset block). -/
def offsetStep (query : String → String) (limit : Int) : Except String Int :=
  if query "offset" ≠ "" then
    match parseInt64 (query "offset") with
    | none => Except.error ("offset (" ++ query "offset" ++ ") is not a number")
    | some inOffset =>
      if inOffset < 0 then
        Except.error ("offset (" ++ toString inOffset ++ ") cannot be negative")
      else if inOffset.tmod limit ≠ 0 then
        Except.error ("offset (" ++ toString inOffset ++
          ") must be a multiple of limit (" ++ toString limit ++ ") or zero")
      else Except.ok inOffset
  else Except.ok DefaultOffset

/-- pagePhase is the final block of LimitAndOffset: when the offset so far
equals DefaultOffset and a page parameter is present, the offset is
derived from the page as page times limit minus limit, in int64
arithmetic. -/
def pagePhase (query : String → String) (limit offset : Int) :
    Int × Int × Nat × Option String :=
  if offset = DefaultOffset ∧ query "page" ≠ "" then
    match parseInt64 (query "page") with
    | none => (0, 0, 400, some ("page (" ++ query "page" ++ ") is not a number"))
    | some inPage =>
      if inPage ≤ 0 then
        (0, 0, 400, some ("page (" ++ toString inPage ++ ") must be 1 or higher"))
      else (limit, wrap64 (inPage * limit - limit), 200, none)
  else (limit, offset, 200, none)

/-- LimitAndOffset returns the Limit and Offset for a given request
querystring, together with an HTTP status and an error value; the Go
early returns become the error arms of the phase results. -/
def LimitAndOffset (query : String → String) : Int × Int × Nat × Option String :=
  match limitStep query with
  | Except.error e => (0, 0, 400, some e)
  | Except.ok limit =>
    match checkLimit (limitParamOf query) limit with
    | some e => (0, 0, 400, some e)
    | none =>
      match offsetStep query limit with
      | Except.error e => (0, 0, 400, some e)
      | Except.ok offset => pagePhase query limit offset

end Pagination

namespace Service

/-! ## Route controller, from webcontroller.go

The repository carries two versions of webcontroller.go; the embedding
follows the one whose GetAllowedMethods seeds the list with HEAD and
OPTIONS and sorts it, which is the behaviour the service tests pin
down (allowed header GET,HEAD,OPTIONS,POST for a GET and POST
controller).

A handler is a Go func taking a response writer and a request; the
response writer is modelled as explicit response-state passing, so a
handler is a function from response to response. The request argument
is not read by any synthesized responder and is dropped. The body
written by render.Error is kept structural: render.Error serialises
an object with a single error field holding the message. -/

/-- Body is the structural shape of a response body. -/
inductive Body where
  | empty
  | jsonError (msg : String)
  | jsonVersion
  | jsonLinks (links : List (String × String))
deriving DecidableEq

/-- setHeader models http.Header.Set: replace the value of the key, or
append the pair when the key is absent. -/
def setHeader : List (String × String) → String → String → List (String × String)
  | [], k, v => [(k, v)]
  | (k0, v0) :: rest, k, v =>
    if k0 = k then (k, v) :: rest else (k0, v0) :: setHeader rest k v

/-- Response is the observable state a handler writes: status code (none
until WriteHeader runs), headers, and body. -/
structure Response where
  status : Option Nat
  headers : List (String × String)
  body : Body
deriving DecidableEq

/-- initResponse is the state of a fresh response writer. -/
def initResponse : Response :=
  { status := none, headers := [], body := Body.empty }

/-- Handler is the shape of a Go method handler under response-state
passing. -/
abbrev Handler : Type := Response → Response

/-- renderError models render.Error: write the status and a JSON object
whose single error field holds the message. -/
def renderError (r : Response) (status : Nat) (msg : String) : Response :=
  { r with status := some status, body := Body.jsonError msg }

/-- WebController describes the HTTP method handlers for a given route;
handlers is the Go map from method id to handler, kept as an
association list with unique keys, and allowed is the memoized
comma-joined allowed-methods string, empty meaning not yet computed. -/
structure WebController where
  Route : String
  handlers : List (Int × Handler)
  allowed : String

/-- NewWebController creates a new controller for a given route. -/
def NewWebController (route : String) : WebController :=
  { Route := route, handlers := [], allowed := "" }

/-- setHandler is the Go map write: replace the entry for the key when
present, else append it. -/
def setHandler : List (Int × Handler) → Int → Handler → List (Int × Handler)
  | [], m, h => [(m, h)]
  | (k, h0) :: rest, m, h =>
    if k = m then (m, h) :: rest else (k, h0) :: setHandler rest m h

/-- lookupHandler is the Go map read with its ok flag collapsed into an
Option. -/
def lookupHandler : List (Int × Handler) → Int → Option Handler
  | [], _ => none
  | (k, h) :: rest, m => if k = m then some h else lookupHandler rest m

/-- charsLe is code-point lexicographic comparison of character lists,
the order Go string comparison induces on the ASCII names involved
here. -/
def charsLe : List Char → List Char → Bool
  | [], _ => true
  | _ :: _, [] => false
  | c :: cs, d :: ds =>
    if c.toNat < d.toNat then true
    else if d.toNat < c.toNat then false
    else charsLe cs ds

/-- strLe compares two strings in the order of charsLe. -/
def strLe (a b : String) : Bool := charsLe a.data b.data

/-- insertBy inserts an element into a list in front of the first element
it compares at-or-below to. -/
def insertBy (le : α → α → Bool) (x : α) : List α → List α
  | [] => [x]
  | y :: ys => if le x y then x :: y :: ys else y :: insertBy le x ys

/-- sortBy is insertion sort; it stands in for the Go sort package, whose
contract is only that the output is an ordered permutation of the
input. -/
def sortBy (le : α → α → Bool) : List α → List α
  | [] => []
  | x :: xs => insertBy le x (sortBy le xs)

/-- sortStrings models sort on a string slice: lexicographic order on the
character sequences, which for the ASCII method names agrees with the
Go byte-wise order. -/
def sortStrings (l : List String) : List String :=
  sortBy strLe l

/-- computeAllowed is the recomputation branch of GetAllowedMethods: seed
with HEAD and OPTIONS, add the name of every registered method, sort,
and comma-join. The Go map iteration order is unspecified, and the
sort makes it irrelevant; the association list order stands in for
it. -/
def computeAllowed (wc : WebController) : String :=
  String.intercalate ","
    (sortStrings ("HEAD" :: "OPTIONS" :: wc.handlers.map (fun kv => GetMethodName kv.1)))

/-- GetAllowedMethods returns a comma-delimited string of HTTP methods
allowed by this controller, memoizing it on the controller; the pair
carries the returned string and the possibly updated controller. -/
def GetAllowedMethods (wc : WebController) : String × WebController :=
  if wc.allowed ≠ "" then (wc.allowed, wc)
  else
    let a := computeAllowed wc
    (a, { wc with allowed := a })

/-- AddMethodHandler adds a HTTP handler to a given HTTP method; the Go
code terminates the process when the method id is unknown or is
OPTIONS or HEAD, modelled as none. On success it stores the handler
and clears the allowed-methods memo. -/
def AddMethodHandler (wc : WebController) (m : Int) (h : Handler) : Option WebController :=
  if ¬ IsMethod m then none
  else if m = Options ∨ m = Head then none
  else some { wc with handlers := setHandler wc.handlers m h, allowed := "" }

/-- GetMethodHandler returns the appropriate method handler for the
request method id or a Method Not Allowed handler; HEAD and OPTIONS
get the synthesized empty 200 responder. -/
def GetMethodHandler (wc : WebController) (m : Int) : Handler :=
  if m = Options ∨ m = Head then
    fun r =>
      let r := { r with headers := setHeader r.headers "Allow" (GetAllowedMethods wc).1 }
      let r := { r with headers := setHeader r.headers "Content-Length" "0" }
      { r with status := some 200 }
  else
    match lookupHandler wc.handlers m with
    | some h => h
    | none =>
      fun r =>
        let allowed := (GetAllowedMethods wc).1
        let r := { r with headers := setHeader r.headers "Allow" allowed }
        renderError r 405 ("405 Method Not Allowed. Allowed: " ++ allowed)

/-- GetHandler returns a global handler for this route, to be used by the
server mux: it extracts the method id from the request and resolves
it through GetMethodHandler. -/
def GetHandler (wc : WebController) : Request → Handler :=
  fun req => GetMethodHandler wc (GetHTTPMethod req)

/-! ## Service router, from service.go

The router is modelled as the ordered list of (path pattern, target)
registrations handed to the external mux, which matches them first to
last. Handlers supplied by external packages (profiling, pprof) are
opaque targets; the synthesized version, root-index and catch-all
handlers are tagged targets. -/

/-- root is the Go root path constant. -/
def root : String := "/"

/-- VersionRoute is the path to the version information endpoint. -/
def VersionRoute : String := "/_version"

/-- catchAllPattern is the greedy wildcard route registered last. -/
def catchAllPattern : String := "/\x7bpath:.*\x7d"

/-- EndPoint describes an endpoint that exists on this web service. -/
structure EndPoint where
  URL : String
  Methods : String
deriving DecidableEq

/-- RouteTarget tags what BuildRouter registered at a path. -/
inductive RouteTarget where
  | controller (wc : WebController)
  | profilerInfoHTML
  | profilerInfo
  | profilerStart
  | profilerStop
  | pprofIndex
  | pprofCmdline
  | pprofProfile
  | pprofSymbol
  | defaultVersion
  | rootIndex (links : List EndPoint)
  | notFound

/-- WebService represents a web server with a collection of controllers. -/
structure WebService where
  controllers : List WebController

/-- versionResponder models the default version handler body: hydrate the
build metadata and render it as JSON with status 200. -/
def versionResponder : Handler :=
  fun r => { r with status := some 200, body := Body.jsonVersion }

/-- NewWebService provides a way to create a new blank WebService,
pre-seeded with the heartbeat controller; the AddMethodHandler call
cannot hit a fatal branch since Get is a valid non-reserved method. -/
def NewWebService : WebService :=
  let heartbeatController := NewWebController "/_heartbeat"
  let heartbeatController :=
    (AddMethodHandler heartbeatController Get versionResponder).getD heartbeatController
  { controllers := [heartbeatController] }

/-- AddWebController allows callees to add their controller; the order in
which the controllers are added is the order in which the routes will
be applied. -/
def AddWebController (ws : WebService) (wc : WebController) : WebService :=
  { controllers := ws.controllers ++ [wc] }

/-- sortLinks models sorting the endpoint slice by URL. -/
def sortLinks (links : List EndPoint) : List EndPoint :=
  sortBy (fun a b => strLe a.URL b.URL) links

/-- routerStep is the body of the controller loop in BuildRouter: note
the seen flags, register the dispatch handler for the route, and
record the endpoint descriptor. The accumulator is rootSeen,
versionSeen, the links, and the routes registered so far. -/
def routerStep (acc : Bool × Bool × List EndPoint × List (String × RouteTarget))
    (wc : WebController) : Bool × Bool × List EndPoint × List (String × RouteTarget) :=
  let rootSeen := acc.1
  let versionSeen := acc.2.1
  let links := acc.2.2.1
  let routes := acc.2.2.2
  let rootSeen := if (!rootSeen && (wc.Route == root)) then true else rootSeen
  let versionSeen := if (!versionSeen && (wc.Route == VersionRoute)) then true else versionSeen
  (rootSeen, versionSeen,
    links ++ [{ URL := wc.Route, Methods := (GetAllowedMethods wc).1 }],
    routes ++ [(wc.Route, RouteTarget.controller wc)])

/-- BuildRouter collects all of the controllers, wires up the routes and
returns the resulting ordered registration list: controllers first,
then the profiling handlers, then the default version handler unless
a controller claimed the version path, then the sorted root index
unless a controller claimed the root, then the catch-all. -/
def BuildRouter (ws : WebService) : List (String × RouteTarget) :=
  let acc := ws.controllers.foldl routerStep (false, false, [], [])
  let rootSeen := acc.1
  let versionSeen := acc.2.1
  let links := acc.2.2.1
  let routes := acc.2.2.2
  let routes := routes ++
    [("/_profiler/info.html", RouteTarget.profilerInfoHTML),
     ("/_profiler/info", RouteTarget.profilerInfo),
     ("/_profiler/start", RouteTarget.profilerStart),
     ("/_profiler/stop", RouteTarget.profilerStop),
     ("/_debug/pprof/", RouteTarget.pprofIndex),
     ("/_debug/pprof/cmdline", RouteTarget.pprofCmdline),
     ("/_debug/pprof/profile", RouteTarget.pprofProfile),
     ("/_debug/pprof/symbol", RouteTarget.pprofSymbol)]
  let links := links ++
    [{ URL := "/_profiler/info.html", Methods := "GET" },
     { URL := "/_debug/pprof", Methods := "GET" }]
  let withVersion :=
    if !versionSeen then
      (routes ++ [(VersionRoute, RouteTarget.defaultVersion)],
       links ++ [{ URL := VersionRoute, Methods := "GET" }])
    else (routes, links)
  let routes := withVersion.1
  let links := withVersion.2
  let routes :=
    if !rootSeen then routes ++ [(root, RouteTarget.rootIndex (sortLinks links))]
    else routes
  routes ++ [(catchAllPattern, RouteTarget.notFound)]

/-- isDefaultVersion recognises the synthesized default version target. -/
def isDefaultVersion : RouteTarget → Bool
  | RouteTarget.defaultVersion => true
  | _ => false

/-- hasDefaultVersion holds when the router carries the synthesized
default version registration. -/
def hasDefaultVersion (routes : List (String × RouteTarget)) : Bool :=
  routes.any (fun e => isDefaultVersion e.2)

/-- handlerForPath models the mux resolution of a literal path: the first
registration whose pattern is that literal path wins. -/
def handlerForPath (routes : List (String × RouteTarget)) (path : String) :
    Option (String × RouteTarget) :=
  routes.find? (fun e => e.1 == path)

end Service

namespace Pagination

/-! ## Concrete query strings used to instantiate the theorems -/

/-- qEmpty is the empty query string. -/
def qEmpty : String → String := fun _ => ""

/-- qLimit7 is the query string limit=7. -/
def qLimit7 : String → String := fun k => if k = "limit" then "7" else ""

/-- qLimitAbc is the query string limit=abc. -/
def qLimitAbc : String → String := fun k => if k = "limit" then "abc" else ""

/-- qLimit25Offset25 is the query string limit=25 with offset=25. -/
def qLimit25Offset25 : String → String :=
  fun k => if k = "limit" then "25" else if k = "offset" then "25" else ""

/-- qPage3Limit20 is the query string page=3 with limit=20 and no offset. -/
def qPage3Limit20 : String → String :=
  fun k => if k = "page" then "3" else if k = "limit" then "20" else ""

/-- qOffset0Page5 is the query string offset=0 with page=5. -/
def qOffset0Page5 : String → String :=
  fun k => if k = "offset" then "0" else if k = "page" then "5" else ""

end Pagination

namespace Service

/-! ## Concrete controllers and services used to instantiate the theorems -/

/-- idHandler is a caller-supplied handler that writes nothing. -/
def idHandler : Handler := fun r => r

/-- wcDummy1 is the controller at the dummy route after registering GET. -/
def wcDummy1 : WebController :=
  { Route := "/dummyRoute", handlers := [(Get, idHandler)], allowed := "" }

/-- wcDummy2 is the controller at the dummy route after registering GET
and POST, matching the controller of the service tests. -/
def wcDummy2 : WebController :=
  { Route := "/dummyRoute", handlers := [(Get, idHandler), (Post, idHandler)], allowed := "" }

/-- wcVersion is a caller controller claiming the version route. -/
def wcVersion : WebController :=
  { Route := VersionRoute, handlers := [(Get, idHandler)], allowed := "" }

/-- wsNoVersion is a service whose only controller is at the dummy route. -/
def wsNoVersion : WebService := { controllers := [wcDummy2] }

/-- wsWithVersion is a service whose only controller claims the version
route. -/
def wsWithVersion : WebService := { controllers := [wcVersion] }

/-- Built characterises the controllers reachable through the public
constructor and mutators: NewWebController, successful AddMethodHandler
calls, and reads of GetAllowedMethods (which may write the memo). -/
inductive Built : WebController → Prop where
  | new (route : String) : Built (NewWebController route)
  | add (wc wc' : WebController) (m : Int) (h : Handler) :
      Built wc → AddMethodHandler wc m h = some wc' → Built wc'
  | read (wc : WebController) : Built wc → Built (GetAllowedMethods wc).2

/-- profilerRoutes is the block of externally supplied profiling
registrations BuildRouter appends after the controllers. -/
def profilerRoutes : List (String × RouteTarget) :=
  [("/_profiler/info.html", RouteTarget.profilerInfoHTML),
   ("/_profiler/info", RouteTarget.profilerInfo),
   ("/_profiler/start", RouteTarget.profilerStart),
   ("/_profiler/stop", RouteTarget.profilerStop),
   ("/_debug/pprof/", RouteTarget.pprofIndex),
   ("/_debug/pprof/cmdline", RouteTarget.pprofCmdline),
   ("/_debug/pprof/profile", RouteTarget.pprofProfile),
   ("/_debug/pprof/symbol", RouteTarget.pprofSymbol)]

/-- linksOf is the endpoint-descriptor list BuildRouter has accumulated
by the time it decides whether to install the root index. -/
def linksOf (ws : WebService) : List EndPoint :=
  (ws.controllers.map (fun wc => { URL := wc.Route, Methods := (GetAllowedMethods wc).1 })) ++
  [{ URL := "/_profiler/info.html", Methods := "GET" },
   { URL := "/_debug/pprof", Methods := "GET" }] ++
  (if ws.controllers.any (fun wc => wc.Route == VersionRoute) then []
   else [{ URL := VersionRoute, Methods := "GET" }])

end Service

/-! ## Theorems -/

/-- Claim C8, counterexample: the claim quantifies over every limit at
least 0, but at limit 1 MaxOffset of a zero total is ((0-1)/1)*1 = -1,
not 0. -/
theorem maxOffset_zero_total_cex :
    (0 : Int) ≤ 1 ∧ Pagination.MaxOffset 0 1 = -1 ∧ Pagination.MaxOffset 0 1 ≠ 0 := by
  decide

/-- Claim C8 (amended): for every limit at least 0 other than 1 (so the
divisor after default substitution is 25 or at least 2), MaxOffset of
total 0 divides the negative numerator -1 down to 0 under
truncate-toward-zero division. -/
theorem maxOffset_zero_total (limit : Int) (h0 : 0 ≤ limit) (h1 : limit ≠ 1) :
    Pagination.MaxOffset 0 limit = 0 := by
  by_cases hz : limit = 0
  · subst hz; decide
  · have h2 : 2 ≤ limit := by omega
    simp only [Pagination.MaxOffset]
    rw [if_neg hz]
    have e1 : (0 - 1 : Int) = -(1 : Int) := by norm_num
    rw [e1, Int.neg_tdiv, Int.tdiv_eq_zero_of_lt (by norm_num) (by omega)]
    norm_num

/-- Claim C8 (amended), witness at limit 25. -/
theorem maxOffset_zero_total_w : Pagination.MaxOffset 0 25 = 0 :=
  maxOffset_zero_total 25 (by norm_num) (by norm_num)

/-- Claim C6, counterexample: the claim quantifies over every integer
total, but for the negative total -1 with limit 25 MaxOffset is 0,
which is greater than the total. -/
theorem maxOffset_le_total_cex :
    Pagination.MaxOffset (-1) 25 = 0 ∧ ¬ Pagination.MaxOffset (-1) 25 ≤ -1 := by
  decide

/-- Claim C6 (amended): for every nonnegative total and every integer
limit, MaxOffset is a multiple of the resolved limit (the default 25
when limit is 0) and is at most the total. -/
theorem maxOffset_mod_le (total limit : Int) (ht : 0 ≤ total) :
    (Pagination.MaxOffset total limit).tmod
        (if limit = 0 then Pagination.DefaultLimit else limit) = 0 ∧
    Pagination.MaxOffset total limit ≤ total := by
  have hM : Pagination.MaxOffset total limit =
      ((total - 1).tdiv (if limit = 0 then Pagination.DefaultLimit else limit)) *
        (if limit = 0 then Pagination.DefaultLimit else limit) := rfl
  set L := if limit = 0 then Pagination.DefaultLimit else limit with hLdef
  constructor
  · rw [hM]
    exact Int.mul_tmod_left _ _
  · rw [hM]
    rcases eq_or_lt_of_le ht with h0 | hpos
    · have e1 : total - 1 = -(1 : Int) := by omega
      rw [e1, Int.neg_tdiv, neg_mul]
      have hnn : 0 ≤ (1 : Int).tdiv L * L := by
        rcases le_or_lt 0 L with hL | hL
        · exact mul_nonneg (Int.tdiv_nonneg (by norm_num) hL) hL
        · have hq : (1 : Int).tdiv L ≤ 0 := Int.tdiv_nonpos (by norm_num) (le_of_lt hL)
          have hp := mul_nonneg (neg_nonneg.mpr hq) (neg_nonneg.mpr (le_of_lt hL))
          rwa [neg_mul_neg] at hp
      linarith
    · have ha : 0 ≤ total - 1 := by omega
      have hdm := Int.tdiv_add_tmod (total - 1) L
      have hr : 0 ≤ (total - 1).tmod L := Int.tmod_nonneg L ha
      have e := mul_comm ((total - 1).tdiv L) L
      linarith

/-- Claim C6 (amended), witness at total 26 and limit 25. -/
theorem maxOffset_mod_le_w :
    (Pagination.MaxOffset 26 25).tmod 25 = 0 ∧ Pagination.MaxOffset 26 25 ≤ 26 := by
  have h := maxOffset_mod_le 26 25 (by norm_num)
  simpa using h

/-- Claim C7: for nonnegative total and positive limit, PageCount is zero
exactly for a zero total, and for a positive total it is the integer
division incremented on a nonzero remainder, which is the least
integer at least total over limit. -/
theorem pageCount_ceil (total limit : Int) (ht : 0 ≤ total) (hl : 0 < limit) :
    (Pagination.PageCount total limit = 0 ↔ total = 0) ∧
    (0 < total →
      Pagination.PageCount total limit =
        total.tdiv limit + (if total.tmod limit = 0 then 0 else 1) ∧
      total ≤ limit * Pagination.PageCount total limit ∧
      limit * (Pagination.PageCount total limit - 1) < total) := by
  have hz : ¬ limit = 0 := by omega
  have hPC : Pagination.PageCount total limit =
      if 0 < total.tmod limit then total.tdiv limit + 1 else total.tdiv limit := by
    simp only [Pagination.PageCount]
    rw [if_neg hz]
  have hdm := Int.tdiv_add_tmod total limit
  have hr0 : 0 ≤ total.tmod limit := Int.tmod_nonneg limit ht
  have hrlt : total.tmod limit < limit := Int.tmod_lt_of_pos total hl
  have hq0 : 0 ≤ total.tdiv limit := Int.tdiv_nonneg ht (le_of_lt hl)
  by_cases hr : 0 < total.tmod limit
  · rw [hPC, if_pos hr]
    refine ⟨⟨fun h => absurd h (by omega), fun h0 => ?_⟩, fun htpos => ⟨?_, ?_, ?_⟩⟩
    · subst h0
      rw [Int.zero_tmod] at hr
      exact absurd hr (by norm_num)
    · rw [if_neg (by omega)]
    · have e1 : limit * (total.tdiv limit + 1) = limit * (total.tdiv limit) + limit := by
        ring
      linarith
    · have e2 : limit * (total.tdiv limit + 1 - 1) = limit * (total.tdiv limit) := by
        ring
      linarith
  · have hre : total.tmod limit = 0 := by omega
    rw [hPC, if_neg hr]
    refine ⟨⟨fun h => ?_, fun h0 => ?_⟩, fun htpos => ⟨?_, ?_, ?_⟩⟩
    · rw [h, mul_zero, hre] at hdm
      omega
    · subst h0
      exact Int.zero_tdiv limit
    · rw [if_pos hre]
      omega
    · linarith
    · have e2 : limit * (total.tdiv limit - 1) = limit * (total.tdiv limit) - limit := by
        ring
      linarith

/-- Claim C7, witness at total 26 and limit 25. -/
theorem pageCount_ceil_w :
    (Pagination.PageCount 26 25 = 0 ↔ (26 : Int) = 0) ∧
    (0 < (26 : Int) →
      Pagination.PageCount 26 25 =
        (26 : Int).tdiv 25 + (if (26 : Int).tmod 25 = 0 then 0 else 1) ∧
      (26 : Int) ≤ 25 * Pagination.PageCount 26 25 ∧
      25 * (Pagination.PageCount 26 25 - 1) < 26) :=
  pageCount_ceil 26 25 (by norm_num) (by norm_num)

/-- Claim C10: on every query string, LimitAndOffset either succeeds with
status 200 and a nil error, or fails with status 400, a non-nil error
and both the limit and the offset zeroed; no partially validated pair
escapes. -/
theorem limitAndOffset_total (query : String → String) :
    (∃ l o, Pagination.LimitAndOffset query = (l, o, 200, none)) ∨
    (∃ e, Pagination.LimitAndOffset query = (0, 0, 400, some e)) := by
  cases hls : Pagination.limitStep query with
  | error e => exact Or.inr ⟨e, by simp only [Pagination.LimitAndOffset, hls]⟩
  | ok limit =>
    cases hck : Pagination.checkLimit (Pagination.limitParamOf query) limit with
    | some e => exact Or.inr ⟨e, by simp only [Pagination.LimitAndOffset, hls, hck]⟩
    | none =>
      cases hos : Pagination.offsetStep query limit with
      | error e => exact Or.inr ⟨e, by simp only [Pagination.LimitAndOffset, hls, hck, hos]⟩
      | ok offset =>
        have hred : Pagination.LimitAndOffset query = Pagination.pagePhase query limit offset := by
          simp only [Pagination.LimitAndOffset, hls, hck, hos]
        rw [hred]
        unfold Pagination.pagePhase
        by_cases hc : offset = Pagination.DefaultOffset ∧ query "page" ≠ ""
        · rw [if_pos hc]
          cases hp : Pagination.parseInt64 (query "page") with
          | none =>
            exact Or.inr ⟨"page (" ++ query "page" ++ ") is not a number", rfl⟩
          | some inPage =>
            by_cases hip : inPage ≤ 0
            · refine Or.inr ⟨"page (" ++ toString inPage ++ ") must be 1 or higher", ?_⟩
              simp only [if_pos hip]
            · refine Or.inl ⟨limit, Pagination.wrap64 (inPage * limit - limit), ?_⟩
              simp only [if_neg hip]
        · rw [if_neg hc]
          exact Or.inl ⟨limit, offset, rfl⟩

/-- Claim C10, witness at the empty query string. -/
theorem limitAndOffset_total_w :
    (∃ l o, Pagination.LimitAndOffset Pagination.qEmpty = (l, o, 200, none)) ∨
    (∃ e, Pagination.LimitAndOffset Pagination.qEmpty = (0, 0, 400, some e)) :=
  limitAndOffset_total Pagination.qEmpty

/-- Claim C4: an explicit limit that fails to parse, or parses to a value
other than the default 25 that is below 1, not a multiple of 5, or
above 250, makes LimitAndOffset fail with a 400 error; and the three
concrete scenarios of the claim evaluate as stated. -/
theorem limitAndOffset_limit_validation (query : String → String) :
    (query (Pagination.limitParamOf query) ≠ "" →
      Pagination.parseInt64 (query (Pagination.limitParamOf query)) = none →
      ∃ e, Pagination.LimitAndOffset query = (0, 0, 400, some e)) ∧
    (∀ L, query (Pagination.limitParamOf query) ≠ "" →
      Pagination.parseInt64 (query (Pagination.limitParamOf query)) = some L →
      L ≠ Pagination.DefaultLimit → (L < 1 ∨ L.tmod 5 ≠ 0 ∨ 250 < L) →
      ∃ e, Pagination.LimitAndOffset query = (0, 0, 400, some e)) ∧
    Pagination.LimitAndOffset Pagination.qLimit7 =
      (0, 0, 400, some "limit (7) must be a multiple of 5") ∧
    Pagination.LimitAndOffset Pagination.qLimit25Offset25 = (25, 25, 200, none) ∧
    Pagination.LimitAndOffset Pagination.qPage3Limit20 = (20, 40, 200, none) := by
  refine ⟨?_, ?_, by decide, by decide, by decide⟩
  · intro hne hparse
    have hls : Pagination.limitStep query =
        Except.error (Pagination.limitParamOf query ++ " (" ++
          query (Pagination.limitParamOf query) ++ ") is not a number") := by
      simp only [Pagination.limitStep, hparse]
      rw [if_pos hne]
    refine ⟨Pagination.limitParamOf query ++ " (" ++
      query (Pagination.limitParamOf query) ++ ") is not a number", ?_⟩
    simp only [Pagination.LimitAndOffset, hls]
  · intro L hne hparse hLd hviol
    have hls : Pagination.limitStep query = Except.ok L := by
      simp only [Pagination.limitStep, hparse]
      rw [if_pos hne]
    have hck : ∃ e, Pagination.checkLimit (Pagination.limitParamOf query) L = some e := by
      unfold Pagination.checkLimit
      rw [if_pos hLd]
      by_cases h1 : L < 1
      · rw [if_pos h1]; exact ⟨_, rfl⟩
      · rw [if_neg h1]
        by_cases h2 : L.tmod 5 ≠ 0
        · rw [if_pos h2]; exact ⟨_, rfl⟩
        · rw [if_neg h2]
          have h3 : L > 250 := by
            rcases hviol with hv | hv | hv
            · exact absurd hv h1
            · exact absurd hv h2
            · exact hv
          rw [if_pos h3]; exact ⟨_, rfl⟩
    obtain ⟨e, he⟩ := hck
    refine ⟨e, ?_⟩
    simp only [Pagination.LimitAndOffset, hls, he]

/-- Claim C4, witness: a non-numeric limit fails, limit 7 fails with the
multiple-of-5 message, and the two valid scenarios succeed. -/
theorem limitAndOffset_limit_validation_w :
    (∃ e, Pagination.LimitAndOffset Pagination.qLimitAbc = (0, 0, 400, some e)) ∧
    (∃ e, Pagination.LimitAndOffset Pagination.qLimit7 = (0, 0, 400, some e)) ∧
    Pagination.LimitAndOffset Pagination.qLimit25Offset25 = (25, 25, 200, none) :=
  ⟨(limitAndOffset_limit_validation Pagination.qLimitAbc).1 (by decide) (by decide),
   (limitAndOffset_limit_validation Pagination.qLimit7).2.1 7 (by decide) (by decide)
     (by decide) (Or.inr (Or.inl (by decide))),
   (limitAndOffset_limit_validation Pagination.qLimit25Offset25).2.2.2.1⟩

/-- Claim C5, counterexample: the offset parameter 0 is present and valid
(nonnegative, a multiple of the resolved limit 25), yet the returned
offset is 100, derived from the page parameter 5, so a present valid
offset does not always win over page. -/
theorem offsetZero_page_cex :
    Pagination.qOffset0Page5 "offset" ≠ "" ∧
    Pagination.parseInt64 (Pagination.qOffset0Page5 "offset") = some 0 ∧
    (0 : Int).tmod Pagination.DefaultLimit = 0 ∧
    Pagination.LimitAndOffset Pagination.qOffset0Page5 = (25, 100, 200, none) := by
  decide

/-- Claim C5 (amended): when the limit phase succeeds and the offset
parameter is present and valid, a nonzero supplied offset is returned
unchanged with the page parameter never consulted; a supplied offset
of 0 equals the default, so a present page parameter is still
consulted and derives the offset as page times limit minus limit. -/
theorem offset_precedence (query : String → String) (L v : Int)
    (hL : Pagination.limitStep query = Except.ok L)
    (hchk : Pagination.checkLimit (Pagination.limitParamOf query) L = none)
    (hop : query "offset" ≠ "")
    (hv : Pagination.parseInt64 (query "offset") = some v)
    (hnn : 0 ≤ v) (hmul : v.tmod L = 0) :
    (v ≠ 0 → Pagination.LimitAndOffset query = (L, v, 200, none)) ∧
    (v = 0 → ∀ p, query "page" ≠ "" → Pagination.parseInt64 (query "page") = some p →
      1 ≤ p →
      Pagination.LimitAndOffset query = (L, Pagination.wrap64 (p * L - L), 200, none)) := by
  have hnlt : ¬ v < 0 := not_lt.mpr hnn
  have hnm : ¬ v.tmod L ≠ 0 := not_not_intro hmul
  have hos : Pagination.offsetStep query L = Except.ok v := by
    simp only [Pagination.offsetStep, hv, hnlt, hnm, ite_false, ite_true, not_false_iff]
    rw [if_pos hop]
  have hmain : Pagination.LimitAndOffset query = Pagination.pagePhase query L v := by
    simp only [Pagination.LimitAndOffset, hL, hchk, hos]
  constructor
  · intro hvz
    rw [hmain]
    have hcond : ¬ (v = Pagination.DefaultOffset ∧ query "page" ≠ "") := by
      intro hand
      exact hvz (by simpa [Pagination.DefaultOffset] using hand.1)
    unfold Pagination.pagePhase
    rw [if_neg hcond]
  · intro hv0 p hpq hp hp1
    rw [hmain]
    have hcond : v = Pagination.DefaultOffset ∧ query "page" ≠ "" := by
      exact ⟨by simpa [Pagination.DefaultOffset] using hv0, hpq⟩
    have hple : ¬ p ≤ 0 := by omega
    unfold Pagination.pagePhase
    rw [if_pos hcond]
    simp only [hp]
    rw [if_neg hple]

/-- Claim C5 (amended), witness: limit 25 with the nonzero offset 25
returns that offset. -/
theorem offset_precedence_w :
    Pagination.LimitAndOffset Pagination.qLimit25Offset25 = (25, 25, 200, none) :=
  (offset_precedence Pagination.qLimit25Offset25 25 25 rfl rfl (by decide) rfl
    (by decide) (by decide)).1 (by decide)

/-- Built controllers carry either an empty allowed-methods memo or a
memo equal to the recomputation from the registered handlers. -/
theorem built_memo_inv (wc : Service.WebController) (h : Service.Built wc) :
    wc.allowed = "" ∨ wc.allowed = Service.computeAllowed wc := by
  induction h with
  | new route => exact Or.inl rfl
  | add wc wc' m hd hb heq ih =>
    left
    simp only [Service.AddMethodHandler] at heq
    split at heq
    · exact Option.noConfusion heq
    · split at heq
      · exact Option.noConfusion heq
      · cases heq
        rfl
  | read wc hb ih =>
    simp only [Service.GetAllowedMethods]
    split
    · exact ih
    · right
      rfl

/-- Claim C3: for every controller reachable through the public API, the
allowed-methods string returned by GetAllowedMethods, memoized or
recomputed, is the comma-joined lexicographically sorted list of the
two always-present synthesized names HEAD and OPTIONS plus the names
of exactly the registered methods, and so reflects the registered set
after every AddMethodHandler. -/
theorem allowedMethods_invariant (wc : Service.WebController) (h : Service.Built wc) :
    (Service.GetAllowedMethods wc).1 =
      String.intercalate ","
        (Service.sortStrings
          ("HEAD" :: "OPTIONS" :: wc.handlers.map (fun kv => Service.GetMethodName kv.1))) := by
  have hinv := built_memo_inv wc h
  simp only [Service.GetAllowedMethods]
  split
  · rename_i hne
    rcases hinv with h0 | hmemo
    · exact absurd h0 hne
    · exact hmemo
  · rfl

/-- Claim C3, witness: the GET and POST controller of the service tests
reports the sorted allowed string GET,HEAD,OPTIONS,POST. -/
theorem allowedMethods_invariant_w :
    (Service.GetAllowedMethods Service.wcDummy2).1 = "GET,HEAD,OPTIONS,POST" := by
  have hb : Service.Built Service.wcDummy2 :=
    Service.Built.add Service.wcDummy1 Service.wcDummy2 Service.Post Service.idHandler
      (Service.Built.add (Service.NewWebController "/dummyRoute") Service.wcDummy1
        Service.Get Service.idHandler (Service.Built.new "/dummyRoute") rfl) rfl
  exact (allowedMethods_invariant Service.wcDummy2 hb).trans (by decide)

/-- Claim C1: resolving a method id against a controller has exactly the
three outcomes of the source: HEAD and OPTIONS get the synthesized
responder that sets Allow to the allowed string, Content-Length to 0
and status 200 with an empty body; a registered method gets its
handler unchanged; any other id gets the 405 responder that sets
Allow and renders the JSON error body. -/
theorem getMethodHandler_three_way (wc : Service.WebController) (m : Int) :
    ((m = Service.Options ∨ m = Service.Head) →
      Service.GetMethodHandler wc m Service.initResponse =
        { status := some 200,
          headers := [("Allow", (Service.GetAllowedMethods wc).1), ("Content-Length", "0")],
          body := Service.Body.empty }) ∧
    (¬ (m = Service.Options ∨ m = Service.Head) →
      ∀ h, Service.lookupHandler wc.handlers m = some h →
        Service.GetMethodHandler wc m = h) ∧
    (¬ (m = Service.Options ∨ m = Service.Head) →
      Service.lookupHandler wc.handlers m = none →
      Service.GetMethodHandler wc m Service.initResponse =
        { status := some 405,
          headers := [("Allow", (Service.GetAllowedMethods wc).1)],
          body := Service.Body.jsonError
            ("405 Method Not Allowed. Allowed: " ++ (Service.GetAllowedMethods wc).1) }) := by
  refine ⟨?_, ?_, ?_⟩
  · intro hm
    unfold Service.GetMethodHandler
    rw [if_pos hm]
    rfl
  · intro hm h hlk
    unfold Service.GetMethodHandler
    rw [if_neg hm, hlk]
  · intro hm hlk
    unfold Service.GetMethodHandler
    rw [if_neg hm, hlk]
    rfl

/-- Claim C1, witness at the GET and POST controller: OPTIONS gets the
synthesized 200 responder, GET gets the registered handler, PUT gets
the 405 responder. -/
theorem getMethodHandler_three_way_w :
    Service.GetMethodHandler Service.wcDummy2 Service.Options Service.initResponse =
      { status := some 200,
        headers := [("Allow", "GET,HEAD,OPTIONS,POST"), ("Content-Length", "0")],
        body := Service.Body.empty } ∧
    Service.GetMethodHandler Service.wcDummy2 Service.Get = Service.idHandler ∧
    Service.GetMethodHandler Service.wcDummy2 Service.Put Service.initResponse =
      { status := some 405,
        headers := [("Allow", "GET,HEAD,OPTIONS,POST")],
        body := Service.Body.jsonError
          "405 Method Not Allowed. Allowed: GET,HEAD,OPTIONS,POST" } := by
  refine ⟨?_, ?_, ?_⟩
  · exact ((getMethodHandler_three_way Service.wcDummy2 Service.Options).1
      (Or.inl rfl)).trans (by decide)
  · exact (getMethodHandler_three_way Service.wcDummy2 Service.Get).2.1
      (by decide) Service.idHandler rfl
  · exact ((getMethodHandler_three_way Service.wcDummy2 Service.Put).2.2
      (by decide) rfl).trans (by decide)

/-- Claim C2, counterexample: the method name FOO is not one of the nine
recognized names, yet dispatch maps it to the OPTIONS id 0 and serves
the synthesized 200 responder with an empty body, not the 405 Method
Not Allowed path. -/
theorem unknownMethod_dispatch_cex :
    Service.GetMethodID "FOO" = Service.Options ∧
    (Service.GetHandler Service.wcDummy2 { Method := "FOO" } Service.initResponse).status
      = some 200 ∧
    (Service.GetHandler Service.wcDummy2 { Method := "FOO" } Service.initResponse).status
      ≠ some 405 := by
  decide

/-- Claim C2 (amended): a request whose method name is not one of the
nine recognized names maps to the OPTIONS id 0, so dispatch returns
the synthesized OPTIONS and HEAD 200 responder (Allow header set to
the allowed string, Content-Length 0, status 200, empty body), not a
registered handler and not the 405 path. -/
theorem unknownMethod_dispatch_options (wc : Service.WebController) (s : String)
    (hs : s ∉ ["OPTIONS", "HEAD", "POST", "GET", "PUT", "PATCH", "DELETE",
      "CONNECT", "TRACE"]) :
    Service.GetMethodID s = Service.Options ∧
    Service.GetHandler wc { Method := s } Service.initResponse =
      { status := some 200,
        headers := [("Allow", (Service.GetAllowedMethods wc).1), ("Content-Length", "0")],
        body := Service.Body.empty } := by
  simp only [List.mem_cons, List.not_mem_nil, or_false, not_or] at hs
  obtain ⟨h1, h2, h3, h4, h5, h6, h7, h8, h9⟩ := hs
  have hid : Service.GetMethodID s = Service.Options := by
    unfold Service.GetMethodID
    rw [if_neg h1, if_neg h2, if_neg h3, if_neg h4, if_neg h5, if_neg h6, if_neg h7,
      if_neg h8, if_neg h9]
    rfl
  refine ⟨hid, ?_⟩
  simp only [Service.GetHandler, Service.GetHTTPMethod]
  rw [hid]
  unfold Service.GetMethodHandler
  rw [if_pos (Or.inl rfl)]
  rfl

/-- Claim C2 (amended), witness at the method name FOO. -/
theorem unknownMethod_dispatch_options_w :
    Service.GetMethodID "FOO" = Service.Options ∧
    Service.GetHandler Service.wcDummy2 { Method := "FOO" } Service.initResponse =
      { status := some 200,
        headers := [("Allow", "GET,HEAD,OPTIONS,POST"), ("Content-Length", "0")],
        body := Service.Body.empty } := by
  obtain ⟨h1, h2⟩ := unknownMethod_dispatch_options Service.wcDummy2 "FOO" (by decide)
  exact ⟨h1, h2.trans (by decide)⟩

/-- The controller loop of BuildRouter: folding routerStep records
whether root and the version route were seen, and appends one link
and one dispatch registration per controller, in order. -/
theorem routerFold_spec (cs : List Service.WebController)
    (acc : Bool × Bool × List Service.EndPoint × List (String × Service.RouteTarget)) :
    cs.foldl Service.routerStep acc =
      (acc.1 || cs.any (fun wc => wc.Route == Service.root),
       acc.2.1 || cs.any (fun wc => wc.Route == Service.VersionRoute),
       acc.2.2.1 ++ cs.map (fun wc =>
         { URL := wc.Route, Methods := (Service.GetAllowedMethods wc).1 }),
       acc.2.2.2 ++ cs.map (fun wc => (wc.Route, Service.RouteTarget.controller wc))) := by
  induction cs generalizing acc with
  | nil => simp
  | cons wc cs ih =>
    rw [List.foldl_cons, ih]
    obtain ⟨rs, vs, links, routes⟩ := acc
    simp only [Service.routerStep, List.any_cons, List.map_cons]
    have hb : ∀ (b c : Bool), (if (!b && c) = true then true else b) = (b || c) := by decide
    rw [hb, hb]
    simp [Bool.or_assoc, List.append_assoc]

/-- BuildRouter in closed form: controller registrations in order, the
profiling block, the synthesized version entry when no controller
claims the version path, the sorted root index when no controller
claims root, and the catch-all last. -/
theorem buildRouter_eq (ws : Service.WebService) :
    Service.BuildRouter ws =
      (ws.controllers.map (fun wc => (wc.Route, Service.RouteTarget.controller wc))) ++
      Service.profilerRoutes ++
      (if ws.controllers.any (fun wc => wc.Route == Service.VersionRoute) then []
       else [(Service.VersionRoute, Service.RouteTarget.defaultVersion)]) ++
      (if ws.controllers.any (fun wc => wc.Route == Service.root) then []
       else [(Service.root,
         Service.RouteTarget.rootIndex (Service.sortLinks (Service.linksOf ws)))]) ++
      [(Service.catchAllPattern, Service.RouteTarget.notFound)] := by
  unfold Service.BuildRouter
  rw [routerFold_spec]
  by_cases hv : ws.controllers.any (fun wc => wc.Route == Service.VersionRoute)
  · by_cases hr : ws.controllers.any (fun wc => wc.Route == Service.root)
    · simp [hv, hr, Service.profilerRoutes, Service.linksOf, List.append_assoc]
    · simp [hv, hr, Service.profilerRoutes, Service.linksOf, List.append_assoc]
  · by_cases hr : ws.controllers.any (fun wc => wc.Route == Service.root)
    · simp [hv, hr, Service.profilerRoutes, Service.linksOf, List.append_assoc]
    · simp [hv, hr, Service.profilerRoutes, Service.linksOf, List.append_assoc]

/-- The router carries the synthesized default version registration
exactly when no controller in the service claims the version path. -/
theorem hasDefaultVersion_buildRouter (ws : Service.WebService) :
    Service.hasDefaultVersion (Service.BuildRouter ws) =
      !(ws.controllers.any (fun c => c.Route == Service.VersionRoute)) := by
  have h1 : ∀ (l : List Service.WebController),
      (l.map (fun wc => (wc.Route, Service.RouteTarget.controller wc))).any
        (fun e => Service.isDefaultVersion e.2) = false := by
    intro l
    induction l with
    | nil => rfl
    | cons x xs ih =>
      rw [List.map_cons, List.any_cons]
      simp [Service.isDefaultVersion, ih]
  have h2 : Service.profilerRoutes.any (fun e => Service.isDefaultVersion e.2) = false := rfl
  have h3 : (if ws.controllers.any (fun wc => wc.Route == Service.VersionRoute) then
        ([] : List (String × Service.RouteTarget))
      else [(Service.VersionRoute, Service.RouteTarget.defaultVersion)]).any
        (fun e => Service.isDefaultVersion e.2) =
      !(ws.controllers.any (fun wc => wc.Route == Service.VersionRoute)) := by
    by_cases hv : ws.controllers.any (fun wc => wc.Route == Service.VersionRoute)
    · rw [if_pos hv, hv]
      rfl
    · have hv' : ws.controllers.any (fun wc => wc.Route == Service.VersionRoute) = false := by
        simpa using hv
      rw [if_neg hv, hv']
      rfl
  have h4 : (if ws.controllers.any (fun wc => wc.Route == Service.root) then
        ([] : List (String × Service.RouteTarget))
      else [(Service.root,
        Service.RouteTarget.rootIndex (Service.sortLinks (Service.linksOf ws)))]).any
        (fun e => Service.isDefaultVersion e.2) = false := by
    split
    · rfl
    · rfl
  have h5 : ([(Service.catchAllPattern, Service.RouteTarget.notFound)]).any
      (fun e => Service.isDefaultVersion e.2) = false := rfl
  rw [buildRouter_eq]
  unfold Service.hasDefaultVersion
  rw [List.any_append, List.any_append, List.any_append, List.any_append,
    h1, h2, h3, h4, h5]
  cases hv : ws.controllers.any (fun c => c.Route == Service.VersionRoute) with
  | false => rfl
  | true => rfl

/-- Claim C9: BuildRouter installs the synthesized default version
handler at the version route exactly when no registered controller
has that route path; and when a controller claims the version route,
the first registration the mux finds at that path is that
controller's dispatch handler, with the default suppressed. -/
theorem buildRouter_version_default (ws : Service.WebService) :
    (Service.hasDefaultVersion (Service.BuildRouter ws) = true ↔
      ∀ wc ∈ ws.controllers, wc.Route ≠ Service.VersionRoute) ∧
    (∀ wc, ws.controllers.find? (fun c => c.Route == Service.VersionRoute) = some wc →
      Service.handlerForPath (Service.BuildRouter ws) Service.VersionRoute =
        some (Service.VersionRoute, Service.RouteTarget.controller wc) ∧
      Service.hasDefaultVersion (Service.BuildRouter ws) = false) := by
  constructor
  · rw [hasDefaultVersion_buildRouter]
    constructor
    · intro h wc hwc
      have hfalse : ws.controllers.any (fun c => c.Route == Service.VersionRoute) = false := by
        simpa using h
      have hnb := List.any_eq_false.mp hfalse wc hwc
      intro heq
      exact hnb (by simp [heq])
    · intro hall
      have hfalse : ws.controllers.any (fun c => c.Route == Service.VersionRoute) = false := by
        rw [List.any_eq_false]
        intro x hx
        simpa using hall x hx
      rw [hfalse]
      rfl
  · intro wc hfind
    have hp :=
      @List.find?_some _ (fun c : Service.WebController => c.Route == Service.VersionRoute)
        wc ws.controllers hfind
    have hv : ws.controllers.any (fun c => c.Route == Service.VersionRoute) = true :=
      List.any_eq_true.mpr ⟨wc, List.mem_of_find?_eq_some hfind, hp⟩
    have hroute : wc.Route = Service.VersionRoute := by
      simpa using hp
    constructor
    · rw [buildRouter_eq]
      unfold Service.handlerForPath
      have hmap : (ws.controllers.map
          (fun wc => (wc.Route, Service.RouteTarget.controller wc))).find?
            (fun e => e.1 == Service.VersionRoute) =
          some (wc.Route, Service.RouteTarget.controller wc) := by
        rw [List.find?_map]
        have hcomp : ((fun e : String × Service.RouteTarget =>
            e.1 == Service.VersionRoute) ∘
            (fun wc : Service.WebController =>
              (wc.Route, Service.RouteTarget.controller wc))) =
            (fun c : Service.WebController => c.Route == Service.VersionRoute) := rfl
        rw [hcomp, hfind]
        rfl
      simp [List.find?_append, hmap, hroute]
    · rw [hasDefaultVersion_buildRouter, hv]
      rfl

/-- Claim C9, witness: a service with no version controller gets the
default version handler; a service whose controller claims the
version route gets that controller, and no default. -/
theorem buildRouter_version_default_w :
    Service.hasDefaultVersion (Service.BuildRouter Service.wsNoVersion) = true ∧
    (Service.handlerForPath (Service.BuildRouter Service.wsWithVersion)
        Service.VersionRoute =
      some (Service.VersionRoute, Service.RouteTarget.controller Service.wcVersion) ∧
     Service.hasDefaultVersion (Service.BuildRouter Service.wsWithVersion) = false) := by
  constructor
  · exact (buildRouter_version_default Service.wsNoVersion).1.mpr
      (by
        intro wc hwc
        have hw : wc = Service.wcDummy2 := by simpa [Service.wsNoVersion] using hwc
        rw [hw]
        decide)
  · exact (buildRouter_version_default Service.wsWithVersion).2 Service.wcVersion rfl
